import Mathlib

/-!
Verification development for the Health Buddy backend (Node/Express).

The JavaScript sources are shallowly embedded as Lean definitions:

* `sessionManager.js` — an in-memory session store.  The JS `Map` is
  modelled as an association list from session ids to sessions; every
  operation that reads the clock (`Date.now()`) takes an explicit `now`
  argument.
* `aiService.js` — the four reasoning stages.  Each outbound OpenAI call
  is an opaque capability; its outcome (decoded value, undecodable text,
  or a thrown invocation error) is an explicit argument of the stage
  function, so a stage is a pure function of its inputs and of the
  capability outcome.  JS strings are modelled as `String`, and the
  code-fence stripping of a reply is modelled character-exactly on
  `String.data`.
* `app.js` (route handlers) — the `/api/analyze`, `/api/chat` and
  `/api/session` handlers as pure functions from a store, a clock value
  and the capability outcomes to a response and an updated store.

JS-specific conventions used throughout: a missing (`undefined`/`null`)
value is `Option.none`; a JS string tested for truthiness is modelled by
comparison with the empty string; object mutation followed by
`sessions.set` is modelled by functional record update plus `mapSet`.
-/

/-! ### Character-level string helpers

JS string primitives used by the sources, modelled on `String.data`
(one `Char` per code point; the sources only ever manipulate ASCII
markers, where JS code units and code points agree). -/

/-- JS `String.prototype.startsWith`: the pattern is a prefix of the string. -/
def strStartsWith (s pat : String) : Bool :=
  pat.data.isPrefixOf s.data

/-- JS `String.prototype.trim` on a character list: drop whitespace from
both ends.  (JS trims a slightly larger whitespace class; the sources
only ever meet spaces, tabs, newlines and carriage returns.) -/
def trimL (l : List Char) : List Char :=
  ((l.dropWhile Char.isWhitespace).reverse.dropWhile Char.isWhitespace).reverse

/-- JS `String.prototype.trim` at `String` level. -/
def strTrim (s : String) : String :=
  ⟨trimL s.data⟩

/-- Remove `p` from the front of `l` if it is a prefix, else leave `l`. -/
def dropPrefixIfL (p l : List Char) : List Char :=
  if p.isPrefixOf l then l.drop p.length else l

/-- Remove `p` from the end of `l` if it is a suffix, else leave `l`. -/
def dropSuffixIfL (p l : List Char) : List Char :=
  if p.isSuffixOf l then l.take (l.length - p.length) else l

/-- The opening fence with language tag checked by `content.startsWith` in
`aiService.js`. -/
def jsonFenceTag : List Char := "```json".data

/-- The leading marker removed by the regex alternative matching at the
start of the string in the tagged branch. -/
def jsonOpenNl : List Char := "```json\n".data

/-- The bare fence checked by the second `content.startsWith` branch. -/
def fence3 : List Char := "```".data

/-- The leading marker removed in the untagged branch. -/
def fenceNl : List Char := "```\n".data

/-- The trailing marker removed by the regex alternative anchored at the
end of the string (both branches). -/
def nlFence : List Char := "\n```".data

/-- The markdown clean-up applied to every capability reply in
`aiService.js` (`analyzeImage`, `searchProductInfo`,
`generateFormattedSummary`, `handleFollowUp` all repeat it verbatim):

if the reply starts with three backticks and the `json` tag, remove the
tagged opening marker (only when its newline follows) and the trailing
newline-plus-fence, then trim; otherwise, if it starts with three bare
backticks, do the same with the untagged opening marker; otherwise leave
the reply unchanged.  The two regexes anchor at the start and end of the
string, so a single replacement pass removes at most one leading and one
trailing marker, exactly as modelled here. -/
def stripFencesL (content : List Char) : List Char :=
  if jsonFenceTag.isPrefixOf content then
    trimL (dropSuffixIfL nlFence (dropPrefixIfL jsonOpenNl content))
  else if fence3.isPrefixOf content then
    trimL (dropSuffixIfL nlFence (dropPrefixIfL fenceNl content))
  else content

/-- Fence stripping at `String` level. -/
def stripFences (content : String) : String :=
  ⟨stripFencesL content.data⟩

/-! ### Session store data model (`sessionManager.js`) -/

/-- One entry of `session.conversationHistory`: the object pushed by
`addToConversationHistory` (`role`, `content`, `timestamp`). -/
structure HistoryEntry where
  role : String
  content : String
  timestamp : Nat
deriving DecidableEq

/-- The session object built by `storeAnalysis`.  The store is agnostic
about the three artifact payloads, so they are type parameters; `webInfo`
and `formattedData` default to `null` in the JS signature, hence
`Option`. -/
structure Session (A W F : Type) where
  analysis : A
  webInfo : Option W
  formattedData : Option F
  conversationHistory : List HistoryEntry
  createdAt : Nat
  lastAccessed : Nat
deriving DecidableEq

/-- The module-level `sessions` JS `Map`, modelled as an association
list without duplicate keys (a JS `Map` cannot hold a key twice). -/
abbrev Store (A W F : Type) := List (String × Session A W F)

/-- JS `sessions.get(k)`: the value under the first matching key. -/
def mapGet {A W F : Type} (m : Store A W F) (k : String) :
    Option (Session A W F) :=
  (m.find? (fun p => p.1 == k)).map Prod.snd

/-- JS `sessions.set(k, v)`: replace the value under an existing key,
keeping its position, else append a new entry. -/
def mapSet {A W F : Type} (m : Store A W F) (k : String) (v : Session A W F) :
    Store A W F :=
  match m with
  | [] => [(k, v)]
  | p :: rest => if p.1 == k then (k, v) :: rest else p :: mapSet rest k v

/-- JS `sessions.delete(k)`: the returned `Bool` tells whether the key
was present; the entry (if any) is removed. -/
def mapDelete {A W F : Type} (m : Store A W F) (k : String) :
    Bool × Store A W F :=
  (m.any (fun p => p.1 == k), m.filter (fun p => !(p.1 == k)))

/-- `SESSION_TIMEOUT` (30 minutes in milliseconds). -/
def SESSION_TIMEOUT : Nat := 30 * 60 * 1000

/-- Body of the `setInterval` sweep: delete every session whose
`lastAccessed` is older than `SESSION_TIMEOUT`. -/
def cleanupExpired {A W F : Type} (now : Nat) (m : Store A W F) :
    Store A W F :=
  m.filter (fun p => !(decide (now - p.2.lastAccessed > SESSION_TIMEOUT)))

/-- `storeAnalysis(sessionId, analysis, webInfo, formattedData)`: build a
fresh session object (empty history, both timestamps set to the current
time) and `set` it unconditionally. -/
def storeAnalysis {A W F : Type} (now : Nat) (sessionId : String)
    (analysis : A) (webInfo : Option W) (formattedData : Option F)
    (m : Store A W F) : Session A W F × Store A W F :=
  let session : Session A W F :=
    { analysis := analysis, webInfo := webInfo,
      formattedData := formattedData, conversationHistory := [],
      createdAt := now, lastAccessed := now }
  (session, mapSet m sessionId session)

/-- `getAnalysis(sessionId)`: `null` when the id is not in the map;
otherwise refresh `lastAccessed` and return the session. -/
def getAnalysis {A W F : Type} (now : Nat) (sessionId : String)
    (m : Store A W F) : Option (Session A W F) × Store A W F :=
  match mapGet m sessionId with
  | none => (none, m)
  | some s =>
    let s' := { s with lastAccessed := now }
    (some s', mapSet m sessionId s')

/-- `addToConversationHistory(sessionId, role, content)`: `null` when the
id is not in the map; otherwise push the new entry, keep only the last 10
entries when the length exceeds 10 (`slice(-10)`), refresh
`lastAccessed`, and `set` the session back. -/
def addToConversationHistory {A W F : Type} (now : Nat) (sessionId : String)
    (role : String) (content : String) (m : Store A W F) :
    Option (Session A W F) × Store A W F :=
  match mapGet m sessionId with
  | none => (none, m)
  | some s =>
    let h1 := s.conversationHistory ++
      [{ role := role, content := content, timestamp := now }]
    let h2 := if h1.length > 10 then h1.drop (h1.length - 10) else h1
    let s' := { s with conversationHistory := h2, lastAccessed := now }
    (some s', mapSet m sessionId s')

/-- `hasSession(sessionId)`: JS `sessions.has`. -/
def hasSession {A W F : Type} (sessionId : String) (m : Store A W F) : Bool :=
  (mapGet m sessionId).isSome

/-- `deleteSession(sessionId)`: forwards `sessions.delete` and returns
its boolean. -/
def deleteSession {A W F : Type} (sessionId : String) (m : Store A W F) :
    Bool × Store A W F :=
  mapDelete m sessionId

/-- The last `k` elements of a list, in order (`slice(-k)` of a list at
least `k` long; the whole list otherwise).  Used to state the history
bound. -/
def lastN {α : Type} (k : Nat) (l : List α) : List α :=
  l.drop (l.length - k)

/-! ### Reasoning stages (`aiService.js`)

Each stage wraps one OpenAI call.  The call and the subsequent
`JSON.parse` are the non-deterministic boundary, so each stage function
takes the outcome of that boundary as an explicit argument: either the
decoded structured value, or raw text that failed to decode, or a thrown
invocation error.  Everything after that boundary is translated from the
source. -/

/-- The fields of the decoded extraction value that the backend reads:
`productName` and `ingredients` feed the later stages, `isError` and
`error` form the self-declared error sentinel of the extraction prompt.
JS truthiness of `error` (a string or absent) is modelled by comparison
with the empty string. -/
structure Analysis where
  productName : String
  ingredients : List String
  isError : Bool
  error : String
deriving DecidableEq

/-- One entry of `webInfo.ingredientInfo` (shape fixed by the enrichment
prompt). -/
structure IngredientInfo where
  ingredient : String
  healthImpact : String
  benefits : List String
  concerns : List String
deriving DecidableEq

/-- The decoded enrichment value (shape fixed by the enrichment prompt
and by the two degraded defaults in the sources). -/
structure WebInfo where
  ingredientInfo : List IngredientInfo
  nutritionalContext : String
  recommendations : String
  comparisons : List String
deriving DecidableEq

/-- Outcome of the extraction-stage capability call plus `JSON.parse`. -/
inductive ExtractCap where
  | decoded (a : Analysis)
  | badJson (raw : String)
  | failed (msg : String)
deriving DecidableEq

/-- Result of `analyzeImage`: the JS object is tagged by its `success`
field, so it is an inductive here. -/
inductive AnalyzeResult where
  | ok (analysis : Analysis)
  | err (error : String) (details : String)
deriving DecidableEq

/-- `analyzeImage(imageBase64, mimeType)`:

* throws (caught by its own handler) when the base64 payload is empty or
  when the MIME type does not start with `image/`;
* otherwise invokes the capability; a thrown call or an undecodable
  reply lands in the catch block, which returns the generic failure;
* a decoded value with `isError` truthy or a non-empty `error` field is
  the error sentinel: the stage fails with that error message (or the
  fixed fallback message when `error` is empty). -/
def analyzeImage (imageBase64 mimeType : String) (cap : ExtractCap) :
    AnalyzeResult :=
  if imageBase64 == "" then
    .err "Failed to analyze image"
      "Invalid image data: base64 string is empty or not a string"
  else if !(strStartsWith mimeType "image/") then
    .err "Failed to analyze image" ("Invalid MIME type: " ++ mimeType)
  else
    match cap with
    | .failed msg => .err "Failed to analyze image" msg
    | .badJson raw => .err "Failed to analyze image" raw
    | .decoded a =>
      if a.isError || !(a.error == "") then
        .err (if a.error == "" then "Failed to analyze the food label"
              else a.error)
          "The model could not process the image as a food label"
      else .ok a

/-- The guard under which control in `analyzeImage` reaches the
`openai.chat.completions.create` call: both validation checks sit before
the call, so the capability is invoked exactly when they pass. -/
def extractInvokesCapability (imageBase64 mimeType : String) : Bool :=
  !(imageBase64 == "") && strStartsWith mimeType "image/"

/-- `SUPPORTED_IMAGE_TYPES` from the server file. -/
def SUPPORTED_IMAGE_TYPES : List String :=
  ["image/jpeg", "image/png", "image/gif", "image/webp"]

/-- The multer `fileFilter` of the server file: accept exactly the
declared media types in `SUPPORTED_IMAGE_TYPES`. -/
def fileFilterAccepts (mimetype : String) : Bool :=
  SUPPORTED_IMAGE_TYPES.contains mimetype

/-- Outcome of the enrichment-stage capability call plus `JSON.parse`. -/
inductive EnrichCap where
  | decoded (w : WebInfo)
  | badJson (raw : String)
  | failed (msg : String)
deriving DecidableEq

/-- The degraded `webInfo` built inside the catch block of
`searchProductInfo`. -/
def aiServiceDegradedWebInfo : WebInfo :=
  { ingredientInfo := []
    nutritionalContext := "Additional information unavailable"
    recommendations :=
      "Consult with a healthcare provider for personalized advice"
    comparisons := [] }

/-- Result of `searchProductInfo`: on success the decoded value, on any
failure (thrown call or undecodable reply) a tagged failure that still
carries the degraded default. -/
inductive SearchResult where
  | ok (webInfo : WebInfo)
  | failedWith (error : String) (webInfo : WebInfo)
deriving DecidableEq

/-- `searchProductInfo(productName, ingredients)`: one capability call;
everything thrown (invocation error or `JSON.parse` error) is absorbed
by the catch block, which returns `success:false` together with the
degraded default.  The product name and the first 10 ingredients only
shape the prompt, i.e. the capability input. -/
def searchProductInfo (productName : String) (ingredients : List String)
    (cap : EnrichCap) : SearchResult :=
  match cap with
  | .decoded w => .ok w
  | .badJson _ =>
    .failedWith "Failed to fetch additional product information"
      aiServiceDegradedWebInfo
  | .failed _ =>
    .failedWith "Failed to fetch additional product information"
      aiServiceDegradedWebInfo

/-- Outcome of the summary-stage capability call plus `JSON.parse`,
over the summary artifact type `F`. -/
inductive SummarizeCap (F : Type) where
  | decoded (f : F)
  | badJson (raw : String)
  | failed (msg : String)
deriving DecidableEq

/-- `generateFormattedSummary(analysis, webInfo)`: returns
`success:true` with the decoded value, and on any failure returns
`success:true` with a fixed fallback summary built from the analysis
(aiService.js lines 355-401).  No claim inspects the summary fields, so
the artifact type `F` and the fallback construction `fallback` are
parameters of the embedding; the routing — this stage never reports
failure — is what the claims use. -/
def generateFormattedSummary {F : Type} (fallback : Analysis → F)
    (analysis : Analysis) (cap : SummarizeCap F) : Bool × F :=
  match cap with
  | .decoded f => (true, f)
  | .badJson _ => (true, fallback analysis)
  | .failed _ => (true, fallback analysis)

/-- The decoded follow-up reply shape requested by the follow-up
prompt. -/
structure ResponseData where
  answer : String
  suggestedQuestions : List String
deriving DecidableEq

/-- Outcome of the follow-up capability call: the raw reply text, or a
thrown invocation error.  (Decoding happens inside `handleFollowUp`, so
here the boundary is the text itself.) -/
inductive RespondCap where
  | replied (text : String)
  | failed (msg : String)
deriving DecidableEq

/-- Result of `handleFollowUp`. -/
inductive FollowUpResult where
  | ok (response : ResponseData)
  | err (error : String) (details : String)
deriving DecidableEq

/-- The fixed generic suggested questions substituted on a parse
failure in `handleFollowUp`. -/
def genericSuggestedQuestions : List String :=
  ["What are the main ingredients?",
   "Is this product healthy?",
   "What are the allergens?"]

/-- `handleFollowUp(analysis, webInfo, question, conversationHistory)`:
a thrown capability call lands in the outer catch block (hard failure,
no fallback answer); otherwise the reply is fence-stripped and parsed —
the inner catch of `JSON.parse` substitutes the stripped text as the
answer plus the fixed generic questions.  The analysis, web info,
question and history only shape the prompt; `parse` models `JSON.parse`
against the expected reply shape. -/
def handleFollowUp (parse : String → Option ResponseData)
    (cap : RespondCap) : FollowUpResult :=
  match cap with
  | .failed msg => .err "Failed to process follow-up question" msg
  | .replied text =>
    let content := stripFences text
    match parse content with
    | some responseData => .ok responseData
    | none => .ok { answer := content,
                    suggestedQuestions := genericSuggestedQuestions }

/-! ### Route handlers (server file) -/

/-- Response of `POST /api/analyze`: tagged by its `success` field. -/
inductive ApiAnalyzeRes (F : Type) where
  | ok (sessionId : String) (data : F) (suggestedQuestions : List String)
  | err (error : String) (details : String)
deriving DecidableEq

/-- The `success` field of an `/api/analyze` response. -/
def ApiAnalyzeRes.isSuccess {F : Type} : ApiAnalyzeRes F → Bool
  | .ok _ _ _ => true
  | .err _ _ => false

/-- The `error` field of an `/api/analyze` response (empty on
success). -/
def ApiAnalyzeRes.errorMsg {F : Type} : ApiAnalyzeRes F → String
  | .ok _ _ _ => ""
  | .err e _ => e

/-- The fixed `suggestedQuestions` of a successful `/api/analyze`
response. -/
def analyzeSuggestedQuestions : List String :=
  ["What are the main health benefits?",
   "Are there any concerning ingredients?",
   "Is this suitable for my diet?",
   "How does this compare to similar products?"]

/-- The degraded `webInfo` written inline in the `/api/analyze` handler
when the enrichment stage reports failure.  (The handler ignores the
`webInfo` carried by the failed `SearchResult` and uses this literal.) -/
def handlerDegradedWebInfo : WebInfo :=
  { ingredientInfo := []
    nutritionalContext := "Additional information unavailable"
    recommendations := "Consult with a healthcare provider"
    comparisons := [] }

/-- The `POST /api/analyze` handler, after multer produced the file:

1. run `analyzeImage`; a failure is returned as-is and nothing is
   stored;
2. run `searchProductInfo`; on failure substitute the inline degraded
   default (the pipeline proceeds);
3. run `generateFormattedSummary`; the handler would fail on
   `success:false`, a branch that stage never takes;
4. mint `newSessionId` (the `uuidv4()` value, an input here) and commit
   everything via `storeAnalysis`.

The empty product name is replaced by the JS
`analysis.productName || 'Unknown Product'` default. -/
def apiAnalyze {F : Type} (fallback : Analysis → F) (now : Nat)
    (newSessionId : String) (imageBase64 mimeType : String)
    (ecap : ExtractCap) (ncap : EnrichCap) (scap : SummarizeCap F)
    (m : Store Analysis WebInfo F) :
    ApiAnalyzeRes F × Store Analysis WebInfo F :=
  match analyzeImage imageBase64 mimeType ecap with
  | .err e d => (.err e d, m)
  | .ok analysis =>
    let productName :=
      if analysis.productName == "" then "Unknown Product"
      else analysis.productName
    let webInfo :=
      match searchProductInfo productName analysis.ingredients ncap with
      | .ok w => w
      | .failedWith _ _ => handlerDegradedWebInfo
    let summaryResult := generateFormattedSummary fallback analysis scap
    if !summaryResult.1 then
      (.err "Failed to generate summary" "", m)
    else
      let m' := (storeAnalysis now newSessionId analysis (some webInfo)
        (some summaryResult.2) m).2
      (.ok newSessionId summaryResult.2 analyzeSuggestedQuestions, m')

/-- Outcome of `POST /api/chat` as seen by the client. -/
inductive ChatOutcome where
  | sessionNotFound (error : String)
  | badRequest (error : String)
  | respondFailure (error : String) (details : String)
  | ok (response : String) (suggestedQuestions : List String)
       (conversationHistory : List HistoryEntry)
deriving DecidableEq

/-- Result of the `/api/chat` handler, together with the history that
was passed to the Respond stage (`none` when the stage was never
invoked) — the observable needed to state the append-before-invoke
ordering. -/
structure ChatResult (F : Type) where
  outcome : ChatOutcome
  stage4History : Option (List HistoryEntry)
  store : Store Analysis WebInfo F

/-- The `POST /api/chat` handler (with the `X-Session-ID` header
present):

1. the `validateSession` middleware rejects ids missing from the store;
2. the handler rejects empty or whitespace-only messages;
3. `getAnalysis` re-reads the session (refreshing `lastAccessed`);
4. the user message is appended to history, and only then is
   `handleFollowUp` invoked — because the JS session object is shared by
   reference, the `conversationHistory` the handler passes to
   `handleFollowUp` is the array after the user append, read here from
   the store;
5. a Respond failure is returned with the user entry already recorded;
   on success the assistant answer is appended and the final history is
   echoed back. -/
def apiChat {F : Type} (parse : String → Option ResponseData) (now : Nat)
    (sessionId message : String) (cap : RespondCap)
    (m : Store Analysis WebInfo F) : ChatResult F :=
  if !(hasSession sessionId m) then
    { outcome := .sessionNotFound
        "Session not found or expired. Please scan the product again."
      stage4History := none, store := m }
  else if (trimL message.data).isEmpty then
    { outcome := .badRequest
        "Message is required and must be a non-empty string"
      stage4History := none, store := m }
  else
    match getAnalysis now sessionId m with
    | (none, m1) =>
      { outcome := .sessionNotFound "Session not found or expired"
        stage4History := none, store := m1 }
    | (some _, m1) =>
      let m2 := (addToConversationHistory now sessionId "user" message m1).2
      let hist :=
        match mapGet m2 sessionId with
        | some s => s.conversationHistory
        | none => []
      match handleFollowUp parse cap with
      | .err e d =>
        { outcome := .respondFailure e d, stage4History := some hist,
          store := m2 }
      | .ok responseData =>
        let m3 := (addToConversationHistory now sessionId "assistant"
          responseData.answer m2).2
        let finalHist :=
          match mapGet m3 sessionId with
          | some s => s.conversationHistory
          | none => []
        { outcome := .ok responseData.answer
            responseData.suggestedQuestions finalHist
          stage4History := some hist, store := m3 }

/-- `DELETE /api/session/:sessionId` intends to call the
`deleteSession` of `sessionManager.js`; note for the record that the
server file omits `deleteSession` from its import list, so the deployed
route would throw a `ReferenceError` — the claims below address the
store operation itself. -/
def apiDeleteSession {A W F : Type} (sessionId : String)
    (m : Store A W F) : Bool × Store A W F :=
  deleteSession sessionId m

/-- `appendMany`: a sequence of `addToConversationHistory` calls against
one session id, each entry carrying its own clock value. -/
def appendMany {A W F : Type} (sessionId : String) (es : List HistoryEntry)
    (m : Store A W F) : Store A W F :=
  es.foldl
    (fun acc e =>
      (addToConversationHistory e.timestamp sessionId e.role e.content acc).2)
    m

/-! ### Store lemmas -/

theorem mapGet_mapSet_self {A W F : Type} (m : Store A W F) (k : String)
    (v : Session A W F) : mapGet (mapSet m k v) k = some v := by
  induction m with
  | nil => simp [mapSet, mapGet, List.find?]
  | cons p rest ih =>
    by_cases h : p.1 == k
    · simp [mapSet, h, mapGet, List.find?]
    · simp only [mapSet, h, Bool.false_eq_true, if_false]
      simpa [mapGet, List.find?, h] using ih

theorem mapGet_mapSet_ne {A W F : Type} (m : Store A W F) (k k' : String)
    (v : Session A W F) (h : k' ≠ k) :
    mapGet (mapSet m k v) k' = mapGet m k' := by
  induction m with
  | nil =>
    simp [mapSet, mapGet, List.find?, show (k == k') = false by
      simpa [beq_iff_eq] using fun hk => h hk.symm]
  | cons p rest ih =>
    by_cases hp : p.1 == k
    · have hpk : p.1 = k := by simpa [beq_iff_eq] using hp
      have : (k == k') = false := by
        simpa [beq_iff_eq] using fun hk => h hk.symm
      simp [mapSet, hp, mapGet, List.find?, this, hpk]
    · simp only [mapSet, hp, Bool.false_eq_true, if_false]
      by_cases hq : p.1 == k'
      · simp [mapGet, List.find?, hq]
      · simpa [mapGet, List.find?, hq] using ih

theorem mapGet_filter_out {A W F : Type} (m : Store A W F) (k : String) :
    mapGet (m.filter (fun p => !(p.1 == k))) k = none := by
  induction m with
  | nil => simp [mapGet]
  | cons p rest ih =>
    by_cases hp : p.1 == k
    · simp only [List.filter, hp, Bool.not_true]
      exact ih
    · simpa [List.filter, hp, mapGet, List.find?] using ih

theorem mapGet_filter_keep {A W F : Type} (m : Store A W F) (k k' : String)
    (h : k' ≠ k) :
    mapGet (m.filter (fun p => !(p.1 == k))) k' = mapGet m k' := by
  induction m with
  | nil => simp
  | cons p rest ih =>
    by_cases hp : p.1 == k
    · have hpk : p.1 = k := by simpa [beq_iff_eq] using hp
      have hne : (p.1 == k') = false := by
        simp [beq_iff_eq, hpk]
        exact fun hk => h hk.symm
      simpa [List.filter, hp, mapGet, List.find?, hne] using ih
    · by_cases hq : p.1 == k'
      · simp [List.filter, hp, mapGet, List.find?, hq]
      · simpa [List.filter, hp, mapGet, List.find?, hq] using ih

theorem any_key_eq_isSome_mapGet {A W F : Type} (m : Store A W F)
    (k : String) : m.any (fun p => p.1 == k) = (mapGet m k).isSome := by
  induction m with
  | nil => simp [mapGet]
  | cons p rest ih =>
    by_cases hp : p.1 == k
    · simp [List.any, hp, mapGet, List.find?]
    · simpa [List.any, hp, mapGet, List.find?] using ih

/-! ### Eviction lemmas: `slice(-10)` as `lastN` -/

theorem lastN_length {α : Type} (k : Nat) (l : List α) :
    (lastN k l).length = min k l.length := by
  simp [lastN, List.length_drop]
  omega

theorem lastN_length_le {α : Type} (k : Nat) (l : List α) :
    (lastN k l).length ≤ k := by
  have := lastN_length k l
  omega

theorem lastN_of_length_le {α : Type} (k : Nat) (l : List α)
    (h : l.length ≤ k) : lastN k l = l := by
  simp [lastN, Nat.sub_eq_zero_of_le h]

/-- The push-then-cap update of `addToConversationHistory` always equals
keeping the last 10 of the extended history. -/
theorem pushCap_eq_lastN (h : List HistoryEntry) (e : HistoryEntry) :
    (if (h ++ [e]).length > 10 then
      (h ++ [e]).drop ((h ++ [e]).length - 10)
     else h ++ [e]) = lastN 10 (h ++ [e]) := by
  by_cases hl : (h ++ [e]).length > 10
  · rw [if_pos hl]; rfl
  · rw [if_neg hl, lastN_of_length_le]; omega

/-- Capping a capped list extended by more entries equals capping the
fully extended list: eviction loses nothing but the oldest entries. -/
theorem lastN_lastN_append {α : Type} (k : Nat) (l r : List α) :
    lastN k (lastN k l ++ r) = lastN k (l ++ r) := by
  by_cases h : l.length ≤ k
  · rw [lastN_of_length_le k l h]
  · unfold lastN
    rw [List.drop_append_eq_append_drop, List.drop_append_eq_append_drop,
      List.drop_drop]
    have h1 : (l.drop (l.length - k)).length = k := by
      simp [List.length_drop]; omega
    congr 2
    · simp [List.length_append, List.length_drop]
      omega
    · simp [List.length_append, h1]
      omega

/-! ### Fence-stripping lemmas -/

theorem isPrefixOf_self_append (l r : List Char) :
    l.isPrefixOf (l ++ r) = true := by
  induction l with
  | nil => simp
  | cons a as ih => simp [List.isPrefixOf, ih]

theorem isSuffixOf_append_self (l r : List Char) :
    l.isSuffixOf (r ++ l) = true := by
  simp [List.isSuffixOf, List.reverse_append, isPrefixOf_self_append]

theorem isPrefixOf_append_same (p a b : List Char) :
    (p ++ a).isPrefixOf (p ++ b) = a.isPrefixOf b := by
  induction p with
  | nil => rfl
  | cons c cs ih => simp [List.isPrefixOf, ih]

theorem isPrefixOf_of_append_left (a b l : List Char)
    (h : (a ++ b).isPrefixOf l = true) : a.isPrefixOf l = true := by
  induction a generalizing l with
  | nil => simp
  | cons c cs ih =>
    cases l with
    | nil => simp [List.isPrefixOf] at h
    | cons d ds =>
      simp only [List.cons_append, List.isPrefixOf, Bool.and_eq_true] at h ⊢
      exact ⟨h.1, ih ds h.2⟩

theorem dropPrefixIfL_append (p x : List Char) :
    dropPrefixIfL p (p ++ x) = x := by
  simp [dropPrefixIfL, isPrefixOf_self_append, List.drop_left]

theorem dropSuffixIfL_append (p x : List Char) :
    dropSuffixIfL p (x ++ p) = x := by
  simp only [dropSuffixIfL, isSuffixOf_append_self, if_true]
  have h : (x ++ p).length - p.length = x.length := by
    simp [List.length_append]
  rw [h, List.take_left]

theorem jsonTag_not_prefixOf_bare (x : List Char) :
    jsonFenceTag.isPrefixOf (fenceNl ++ x) = false := by
  have h1 : jsonFenceTag = fence3 ++ "json".data := by decide
  have h2 : fenceNl = fence3 ++ "\n".data := by decide
  rw [h1, h2, List.append_assoc, isPrefixOf_append_same]
  have h3 : ("j".data.head?.getD ' ' == '\n') = false := by decide
  simp only [show "json".data = 'j' :: "son".data by decide,
    show "\n".data = ['\n'] by decide, List.singleton_append,
    List.isPrefixOf, show ('j' == '\n') = false by decide,
    Bool.false_and]

/-- The tagged wrapped form strips back to the trimmed payload. -/
theorem stripFencesL_json_wrap (t : List Char) :
    stripFencesL (jsonOpenNl ++ t ++ nlFence) = trimL t := by
  have hpre : jsonFenceTag.isPrefixOf (jsonOpenNl ++ t ++ nlFence) = true := by
    have h1 : jsonOpenNl = jsonFenceTag ++ "\n".data := by decide
    rw [List.append_assoc, h1, List.append_assoc]
    exact isPrefixOf_self_append ..
  rw [stripFencesL, if_pos hpre, List.append_assoc, dropPrefixIfL_append,
    dropSuffixIfL_append]

/-- The untagged wrapped form strips back to the trimmed payload. -/
theorem stripFencesL_bare_wrap (t : List Char) :
    stripFencesL (fenceNl ++ t ++ nlFence) = trimL t := by
  have hjson : jsonFenceTag.isPrefixOf (fenceNl ++ t ++ nlFence) = false := by
    rw [List.append_assoc]; exact jsonTag_not_prefixOf_bare ..
  have hbare : fence3.isPrefixOf (fenceNl ++ t ++ nlFence) = true := by
    have h1 : fenceNl = fence3 ++ "\n".data := by decide
    rw [List.append_assoc, h1, List.append_assoc]
    exact isPrefixOf_self_append ..
  rw [stripFencesL, if_neg (by rw [hjson]; decide), if_pos hbare,
    List.append_assoc, dropPrefixIfL_append, dropSuffixIfL_append]

/-- A reply that does not open with a fence is left untouched. -/
theorem stripFencesL_no_fence (t : List Char)
    (h : fence3.isPrefixOf t = false) : stripFencesL t = t := by
  have hjson : jsonFenceTag.isPrefixOf t = false := by
    cases hj : jsonFenceTag.isPrefixOf t with
    | false => rfl
    | true =>
      have h1 : jsonFenceTag = fence3 ++ "json".data := by decide
      rw [h1] at hj
      rw [isPrefixOf_of_append_left _ _ _ hj] at h
      exact absurd h (by decide)
  rw [stripFencesL, if_neg (by rw [hjson]; decide),
    if_neg (by rw [h]; decide)]

theorem string_data_append (a b : String) :
    (a ++ b).data = a.data ++ b.data :=
  String.data_append ..

/-- `stripFences` at `String` level on the tagged wrapped form. -/
theorem stripFences_json_wrap (t : String) :
    stripFences ("```json\n" ++ t ++ "\n```") = strTrim t := by
  show String.mk _ = String.mk _
  rw [string_data_append, string_data_append]
  exact congrArg String.mk (stripFencesL_json_wrap t.data)

/-- `stripFences` at `String` level on the untagged wrapped form. -/
theorem stripFences_bare_wrap (t : String) :
    stripFences ("```\n" ++ t ++ "\n```") = strTrim t := by
  show String.mk _ = String.mk _
  rw [string_data_append, string_data_append]
  exact congrArg String.mk (stripFencesL_bare_wrap t.data)

/-- `stripFences` at `String` level on a fence-free reply. -/
theorem stripFences_no_fence (t : String)
    (h : fence3.isPrefixOf t.data = false) : stripFences t = t := by
  have : stripFencesL t.data = t.data := stripFencesL_no_fence t.data h
  cases t with
  | mk l => exact congrArg String.mk this

/-! ### Composite store lemmas -/

theorem getAnalysis_none {A W F : Type} (now : Nat) (sid : String)
    (m : Store A W F) (hs : mapGet m sid = none) :
    getAnalysis now sid m = (none, m) := by
  simp [getAnalysis, hs]

theorem getAnalysis_some {A W F : Type} (now : Nat) (sid : String)
    (m : Store A W F) (s : Session A W F) (hs : mapGet m sid = some s) :
    getAnalysis now sid m =
      (some { s with lastAccessed := now },
       mapSet m sid { s with lastAccessed := now }) := by
  simp [getAnalysis, hs]

theorem addToConversationHistory_some {A W F : Type} (now : Nat)
    (sid role content : String) (m : Store A W F) (s : Session A W F)
    (hs : mapGet m sid = some s) :
    addToConversationHistory now sid role content m =
      (some { s with
          conversationHistory := lastN 10 (s.conversationHistory ++
            [{ role := role, content := content, timestamp := now }])
          lastAccessed := now },
       mapSet m sid { s with
          conversationHistory := lastN 10 (s.conversationHistory ++
            [{ role := role, content := content, timestamp := now }])
          lastAccessed := now }) := by
  simp only [addToConversationHistory, hs, pushCap_eq_lastN]

theorem appendMany_history {A W F : Type} (es : List HistoryEntry)
    (sid : String) (m : Store A W F) (s : Session A W F)
    (l : List HistoryEntry) (hs : mapGet m sid = some s)
    (hl : s.conversationHistory = lastN 10 l) :
    (mapGet (appendMany sid es m) sid).map Session.conversationHistory
      = some (lastN 10 (l ++ es)) := by
  induction es generalizing m s l with
  | nil => simp [appendMany, hs, hl]
  | cons e rest ih =>
    have hstep := addToConversationHistory_some e.timestamp sid e.role
      e.content m s hs
    have hfold : appendMany sid (e :: rest) m =
        appendMany sid rest
          (addToConversationHistory e.timestamp sid e.role e.content m).2 :=
      rfl
    rw [hfold, hstep]
    have hl' : lastN 10 (s.conversationHistory ++
        [{ role := e.role, content := e.content, timestamp := e.timestamp }])
        = lastN 10 (l ++ [e]) := by
      rw [hl, lastN_lastN_append]
    have := ih (mapSet m sid { s with
        conversationHistory := lastN 10 (s.conversationHistory ++
          [{ role := e.role, content := e.content,
             timestamp := e.timestamp }])
        lastAccessed := e.timestamp })
      { s with
        conversationHistory := lastN 10 (s.conversationHistory ++
          [{ role := e.role, content := e.content,
             timestamp := e.timestamp }])
        lastAccessed := e.timestamp }
      (l ++ [e]) (mapGet_mapSet_self ..) hl'
    simpa using this

/-! ### Concrete fixtures used by witnesses and counterexamples -/

/-- The session object `storeAnalysis` builds at time 0 with trivial
artifacts. -/
def sessionFixture : Session Unit Unit Unit :=
  { analysis := (), webInfo := none, formattedData := none,
    conversationHistory := [], createdAt := 0, lastAccessed := 0 }

/-- A store holding a single session created at time 0 under the id
`sid-1`. -/
def storeFixture : Store Unit Unit Unit :=
  (storeAnalysis 0 "sid-1" () none none []).2

/-- A store in which the `sid-1` session already carries one history
entry (appended at time 3). -/
def storeFixture2 : Store Unit Unit Unit :=
  (addToConversationHistory 3 "sid-1" "user" "hello" storeFixture).2

/-! ### Claims about the session store -/

/-- Claim C1: starting from a session freshly created by `storeAnalysis`,
after any sequence of `addToConversationHistory` calls the stored
conversation history is exactly the last 10 appended entries in their
original order (the oldest entries are evicted first), and its length
never exceeds 10. -/
theorem history_cap_fifo {A W F : Type} (now : Nat) (sid : String) (a : A)
    (w : Option W) (f : Option F) (m : Store A W F)
    (es : List HistoryEntry) :
    (mapGet (appendMany sid es (storeAnalysis now sid a w f m).2) sid).map
        Session.conversationHistory = some (lastN 10 es)
    ∧ (lastN 10 es).length ≤ 10 := by
  constructor
  · have hs : mapGet (storeAnalysis now sid a w f m).2 sid =
        some { analysis := a, webInfo := w, formattedData := f,
               conversationHistory := [], createdAt := now,
               lastAccessed := now } := mapGet_mapSet_self ..
    have := appendMany_history es sid _ _ [] hs rfl
    simpa using this
  · exact lastN_length_le ..

/-- Claim C2 (counterexample): a session whose `lastAccessed` lies a full
`SESSION_TIMEOUT` plus one millisecond in the past — expired by the
criterion of the sweep itself, which would delete it — is still returned
by `getAnalysis` when the sweep has not run, contradicting the claim that
`get` returns absent for expired ids even before the sweep. -/
theorem getAnalysis_expired_cex :
    SESSION_TIMEOUT + 1 - sessionFixture.lastAccessed > SESSION_TIMEOUT
    ∧ cleanupExpired (SESSION_TIMEOUT + 1) storeFixture = []
    ∧ (getAnalysis (SESSION_TIMEOUT + 1) "sid-1" storeFixture).1 ≠ none := by
  exact ⟨by decide, by decide, by decide⟩

/-- Claim C2 (amended): `getAnalysis` returns absent exactly when the id
is not present in the store (unknown, deleted, or already removed by the
periodic sweep) — expiry is never checked here, so an over-TTL session
that the sweep has not yet removed is still returned; every successful
`get` refreshes `lastAccessed` to the current time, both in the returned
session and in the store. -/
theorem getAnalysis_absent_iff_unknown {A W F : Type} (now : Nat)
    (sid : String) (m : Store A W F) :
    ((getAnalysis now sid m).1 = none ↔ mapGet m sid = none)
    ∧ ∀ s, mapGet m sid = some s →
        (getAnalysis now sid m).1 = some { s with lastAccessed := now }
        ∧ mapGet (getAnalysis now sid m).2 sid =
            some { s with lastAccessed := now } := by
  constructor
  · cases hs : mapGet m sid with
    | none => simp [getAnalysis_none now sid m hs]
    | some s => simp [getAnalysis_some now sid m s hs]
  · intro s hs
    rw [getAnalysis_some now sid m s hs]
    exact ⟨rfl, mapGet_mapSet_self ..⟩

theorem getAnalysis_absent_iff_unknown_witness :
    (getAnalysis 5 "sid-1" storeFixture).1 =
        some { sessionFixture with lastAccessed := 5 }
    ∧ mapGet (getAnalysis 5 "sid-1" storeFixture).2 "sid-1" =
        some { sessionFixture with lastAccessed := 5 } :=
  (getAnalysis_absent_iff_unknown 5 "sid-1" storeFixture).2 sessionFixture
    (by decide)

/-- Claim C5: `deleteSession` is a total function returning `true`
exactly when a session with the id exists; it removes that entry and
leaves every other id untouched.  (The function body is a single
`Map.delete`, so no input can make it throw.) -/
theorem deleteSession_bool_spec {A W F : Type} (sid : String)
    (m : Store A W F) :
    (deleteSession sid m).1 = (mapGet m sid).isSome
    ∧ mapGet (deleteSession sid m).2 sid = none
    ∧ ∀ k, k ≠ sid → mapGet (deleteSession sid m).2 k = mapGet m k :=
  ⟨any_key_eq_isSome_mapGet m sid, mapGet_filter_out m sid,
   fun k hk => mapGet_filter_keep m sid k hk⟩

theorem deleteSession_bool_spec_witness :
    (deleteSession "sid-1" storeFixture).1 = true
    ∧ mapGet (deleteSession "sid-1" storeFixture).2 "other" =
        mapGet storeFixture "other" :=
  ⟨by rw [(deleteSession_bool_spec "sid-1" storeFixture).1]; decide,
   (deleteSession_bool_spec "sid-1" storeFixture).2.2 "other" (by decide)⟩

/-- Claim C10: `storeAnalysis` is an unconditional upsert: whatever the
store held under the id before (it performs no existence or uniqueness
check), afterwards the id maps to a freshly built session whose history
is empty and whose `createdAt` and `lastAccessed` equal the current
time; all other ids are untouched. -/
theorem storeAnalysis_unconditional_upsert {A W F : Type} (now : Nat)
    (sid : String) (a : A) (w : Option W) (f : Option F)
    (m : Store A W F) :
    mapGet (storeAnalysis now sid a w f m).2 sid =
      some { analysis := a, webInfo := w, formattedData := f,
             conversationHistory := [], createdAt := now,
             lastAccessed := now }
    ∧ ∀ k, k ≠ sid →
        mapGet (storeAnalysis now sid a w f m).2 k = mapGet m k :=
  ⟨mapGet_mapSet_self .., fun k hk => mapGet_mapSet_ne m sid k _ hk⟩

theorem storeAnalysis_unconditional_upsert_witness :
    mapGet (storeAnalysis 9 "sid-1" () none none storeFixture2).2 "sid-1" =
      some { analysis := (), webInfo := none, formattedData := none,
             conversationHistory := [], createdAt := 9, lastAccessed := 9 }
    ∧ mapGet (storeAnalysis 9 "sid-1" () none none storeFixture2).2 "other" =
        mapGet storeFixture2 "other" :=
  ⟨(storeAnalysis_unconditional_upsert 9 "sid-1" () none none
      storeFixture2).1,
   (storeAnalysis_unconditional_upsert 9 "sid-1" () none none
      storeFixture2).2 "other" (by decide)⟩

/-! ### Claims about the analysis pipeline -/

/-- A decoded extraction value carrying the error sentinel documented in
the extraction prompt. -/
def analysisSentinel : Analysis :=
  { productName := "", ingredients := [], isError := true,
    error := "Unable to process the image. Please ensure the image is clear and contains a food label." }

/-- A well-formed decoded extraction value. -/
def analysisOk : Analysis :=
  { productName := "Oat Crisp", ingredients := ["oats", "sugar"],
    isError := false, error := "" }

theorem analyzeImage_sentinel (imageBase64 mimeType : String) (a : Analysis)
    (ha : a.isError = true ∨ a.error ≠ "") :
    ∃ e d, analyzeImage imageBase64 mimeType (.decoded a) = .err e d
      ∧ e ≠ "" := by
  cases hb : imageBase64 == "" with
  | true =>
    exact ⟨"Failed to analyze image",
      "Invalid image data: base64 string is empty or not a string",
      by simp [analyzeImage, hb], by decide⟩
  | false =>
    cases hm : strStartsWith mimeType "image/" with
    | false =>
      exact ⟨"Failed to analyze image", "Invalid MIME type: " ++ mimeType,
        by simp [analyzeImage, hb, hm], by decide⟩
    | true =>
      cases he : a.error == "" with
      | true =>
        have hae : a.isError = true := by
          rcases ha with h | h
          · exact h
          · exact absurd (by simpa [beq_iff_eq] using he) h
        exact ⟨"Failed to analyze the food label",
          "The model could not process the image as a food label",
          by simp [analyzeImage, hb, hm, hae, he], by decide⟩
      | false =>
        exact ⟨a.error,
          "The model could not process the image as a food label",
          by simp [analyzeImage, hb, hm, he],
          by simpa [beq_iff_eq] using he⟩

/-- Claim C3: when the decoded extraction value carries the error
sentinel (truthy `isError` or a non-empty `error` field), the
`/api/analyze` handler returns a failure with a non-empty error message
and leaves the store exactly as it was — in particular no session is
created for the request. -/
theorem extraction_sentinel_terminal {F : Type} (fallback : Analysis → F)
    (now : Nat) (sid imageBase64 mimeType : String) (a : Analysis)
    (ncap : EnrichCap) (scap : SummarizeCap F)
    (m : Store Analysis WebInfo F)
    (ha : a.isError = true ∨ a.error ≠ "") :
    ((apiAnalyze fallback now sid imageBase64 mimeType (.decoded a) ncap
        scap m).1).isSuccess = false
    ∧ ((apiAnalyze fallback now sid imageBase64 mimeType (.decoded a) ncap
        scap m).1).errorMsg ≠ ""
    ∧ (apiAnalyze fallback now sid imageBase64 mimeType (.decoded a) ncap
        scap m).2 = m := by
  obtain ⟨e, d, heq, hne⟩ := analyzeImage_sentinel imageBase64 mimeType a ha
  simp [apiAnalyze, heq, ApiAnalyzeRes.isSuccess, ApiAnalyzeRes.errorMsg, hne]

theorem extraction_sentinel_terminal_witness :
    ((apiAnalyze (fun _ => ()) 0 "sid-1" "QUFBQQ==" "image/png"
        (.decoded analysisSentinel) (.failed "x") (.failed "y")
        ([] : Store Analysis WebInfo Unit)).1).isSuccess = false
    ∧ (apiAnalyze (fun _ => ()) 0 "sid-1" "QUFBQQ==" "image/png"
        (.decoded analysisSentinel) (.failed "x") (.failed "y")
        ([] : Store Analysis WebInfo Unit)).2 = [] :=
  have h := extraction_sentinel_terminal (fun _ => ()) 0 "sid-1" "QUFBQQ=="
    "image/png" analysisSentinel (.failed "x") (.failed "y") []
    (Or.inl (by decide))
  ⟨h.1, h.2.2⟩

/-- Claim C4: when the extraction succeeded but the enrichment
capability invocation fails in any way (thrown call or undecodable
reply), the `/api/analyze` handler still succeeds and the created
session carries exactly the fixed degraded enrichment default (empty
ingredient info, unavailable context, consult-a-provider recommendation,
empty comparisons). -/
theorem enrich_failure_degraded_default {F : Type} (fallback : Analysis → F)
    (now : Nat) (sid imageBase64 mimeType : String) (a : Analysis)
    (ncap : EnrichCap) (scap : SummarizeCap F)
    (m : Store Analysis WebInfo F)
    (hb : (imageBase64 == "") = false)
    (hm : strStartsWith mimeType "image/" = true)
    (hie : a.isError = false) (he : a.error = "")
    (hn : ∀ w, ncap ≠ EnrichCap.decoded w) :
    ((apiAnalyze fallback now sid imageBase64 mimeType (.decoded a) ncap
        scap m).1).isSuccess = true
    ∧ mapGet (apiAnalyze fallback now sid imageBase64 mimeType (.decoded a)
        ncap scap m).2 sid =
      some { analysis := a, webInfo := some handlerDegradedWebInfo,
             formattedData :=
               some (generateFormattedSummary fallback a scap).2,
             conversationHistory := [], createdAt := now,
             lastAccessed := now } := by
  have hana : analyzeImage imageBase64 mimeType (.decoded a) = .ok a := by
    simp [analyzeImage, hb, hm, hie, he]
  have hsearch : searchProductInfo
      (if a.productName == "" then "Unknown Product" else a.productName)
      a.ingredients ncap =
      .failedWith "Failed to fetch additional product information"
        aiServiceDegradedWebInfo := by
    cases ncap with
    | decoded w => exact absurd rfl (hn w)
    | badJson r => rfl
    | failed msg => rfl
  have hsum : (generateFormattedSummary fallback a scap).1 = true := by
    cases scap <;> rfl
  simp only [apiAnalyze, hana, hsearch, hsum, Bool.not_true,
    Bool.false_eq_true, if_false, ApiAnalyzeRes.isSuccess, true_and]
  exact mapGet_mapSet_self ..

theorem enrich_failure_degraded_default_witness :
    ((apiAnalyze (fun _ => ()) 7 "sid-1" "QUFBQQ==" "image/png"
        (.decoded analysisOk) (.failed "boom") (.failed "s")
        ([] : Store Analysis WebInfo Unit)).1).isSuccess = true
    ∧ mapGet (apiAnalyze (fun _ => ()) 7 "sid-1" "QUFBQQ==" "image/png"
        (.decoded analysisOk) (.failed "boom") (.failed "s")
        ([] : Store Analysis WebInfo Unit)).2 "sid-1" =
      some { analysis := analysisOk,
             webInfo := some handlerDegradedWebInfo,
             formattedData := some (),
             conversationHistory := [], createdAt := 7,
             lastAccessed := 7 } :=
  enrich_failure_degraded_default (fun _ => ()) 7 "sid-1" "QUFBQQ=="
    "image/png" analysisOk (.failed "boom") (.failed "s") []
    (by decide) (by decide) (by decide) (by decide)
    (fun w h => EnrichCap.noConfusion h)

/-- Claim C6 (counterexample): the media type `image/tiff` is not in the
fixed allow-list `SUPPORTED_IMAGE_TYPES`, yet together with a non-empty
payload it passes both checks of `analyzeImage` and therefore reaches
the reasoning capability — the stage checks only the `image/` prefix,
not allow-list membership. -/
theorem extract_stage_not_allowlist_cex :
    extractInvokesCapability "QUFBQQ==" "image/tiff" = true
    ∧ fileFilterAccepts "image/tiff" = false :=
  ⟨by decide, by decide⟩

/-- Claim C6 (amended): before invoking the reasoning capability the
Extract stage validates that the base64 payload is non-empty and that
the declared media type starts with `image/` (membership in the fixed
four-type allow-list is enforced upstream, by the multer file filter of
the transport layer, not by the stage); inputs failing either stage
check never reach the capability — the stage result does not depend on
the capability outcome at all. -/
theorem extract_stage_validation (imageBase64 mimeType : String) :
    (extractInvokesCapability imageBase64 mimeType = true ↔
      imageBase64 ≠ "" ∧ strStartsWith mimeType "image/" = true)
    ∧ (extractInvokesCapability imageBase64 mimeType = false →
        ∀ c₁ c₂ : ExtractCap,
          analyzeImage imageBase64 mimeType c₁ =
            analyzeImage imageBase64 mimeType c₂) := by
  constructor
  · simp [extractInvokesCapability, Bool.and_eq_true, beq_iff_eq,
      Bool.not_eq_true', ne_eq]
  · intro h c₁ c₂
    cases hb : imageBase64 == "" with
    | true => simp [analyzeImage, hb]
    | false =>
      have hs : strStartsWith mimeType "image/" = false := by
        rw [extractInvokesCapability, hb] at h
        simpa using h
      simp [analyzeImage, hb, hs]

theorem extract_stage_validation_witness :
    extractInvokesCapability "QQ==" "image/png" = true :=
  (extract_stage_validation "QQ==" "image/png").1.mpr
    ⟨by decide, by decide⟩

/-! ### Claims about output coercion and the Respond stage -/

/-- Claim C7 (counterexample): a fence carrying the language tag
`python` is not stripped by the coercion layer: the leading marker
survives (only the trailing one is removed), so the wrapped payload does
not coerce to the unwrapped payload. -/
theorem stripFences_other_tag_cex :
    stripFences "```python\n[1]\n```" = "```python\n[1]"
    ∧ stripFences "```python\n[1]\n```" ≠ "[1]"
    ∧ stripFences "[1]" = "[1]" :=
  ⟨by decide, by decide, by decide⟩

/-- Claim C7 (amended): for the two fence forms the coercion layer
handles — the `json` language tag or no tag — coercing the wrapped
response yields the same parsed value as coercing the unwrapped text,
for every parser insensitive to edge whitespace (as `JSON.parse` is)
and every payload that does not itself open with a fence; a fence with
any other language tag keeps its leading marker. -/
theorem stripFences_fence_transparent {α : Type}
    (parse : String → Option α) (t : String)
    (hp : ∀ s, parse (strTrim s) = parse s)
    (ht : fence3.isPrefixOf t.data = false) :
    stripFences ("```json\n" ++ t ++ "\n```") = strTrim t
    ∧ stripFences ("```\n" ++ t ++ "\n```") = strTrim t
    ∧ parse (stripFences ("```json\n" ++ t ++ "\n```")) =
        parse (stripFences t)
    ∧ parse (stripFences ("```\n" ++ t ++ "\n```")) =
        parse (stripFences t) := by
  have h1 := stripFences_json_wrap t
  have h2 := stripFences_bare_wrap t
  have h3 := stripFences_no_fence t ht
  exact ⟨h1, h2, by rw [h1, hp, h3], by rw [h2, hp, h3]⟩

theorem stripFences_fence_transparent_witness :
    stripFences ("```json\n" ++ "[1]" ++ "\n```") = strTrim "[1]" :=
  (stripFences_fence_transparent (fun _ => (none : Option Nat)) "[1]"
    (fun _ => rfl) (by decide)).1

/-- Claim C8 (counterexample): a fenced reply that fails structured
parsing makes the Respond stage succeed with the fence-stripped text as
the answer — not with the raw reply text verbatim. -/
theorem followup_not_verbatim_cex :
    handleFollowUp (fun _ => none) (.replied "```\nhello\n```") =
      .ok { answer := "hello",
            suggestedQuestions := genericSuggestedQuestions }
    ∧ "hello" ≠ "```\nhello\n```" :=
  ⟨by decide, by decide⟩

/-- Claim C8 (amended): on parse failure the Respond stage still
succeeds, with the fence-stripped reply text as the answer (hence the
reply verbatim exactly when it carries no leading fence marker) plus the
fixed generic suggested questions; on capability invocation failure it
returns a hard failure carrying no fallback answer; on parse success it
returns the decoded value. -/
theorem handleFollowUp_failure_policy (parse : String → Option ResponseData)
    (text msg : String) :
    handleFollowUp parse (.failed msg) =
      .err "Failed to process follow-up question" msg
    ∧ (parse (stripFences text) = none →
        handleFollowUp parse (.replied text) =
          .ok { answer := stripFences text,
                suggestedQuestions := genericSuggestedQuestions })
    ∧ (∀ rd, parse (stripFences text) = some rd →
        handleFollowUp parse (.replied text) = .ok rd)
    ∧ (fence3.isPrefixOf text.data = false → stripFences text = text) := by
  refine ⟨rfl, fun hp => ?_, fun rd hp => ?_, stripFences_no_fence text⟩
  · simp [handleFollowUp, hp]
  · simp [handleFollowUp, hp]

theorem handleFollowUp_failure_policy_witness :
    handleFollowUp (fun _ => none) (.failed "netdown") =
      .err "Failed to process follow-up question" "netdown"
    ∧ handleFollowUp (fun _ => none) (.replied "plain text answer") =
        .ok { answer := "plain text answer",
              suggestedQuestions := genericSuggestedQuestions } :=
  have h := handleFollowUp_failure_policy (fun _ => none)
    "plain text answer" "netdown"
  ⟨h.1, (h.2.1 rfl).trans (by decide)⟩

/-! ### Claim about the conversation controller -/

/-- Claim C9: on a session present in the store and a message that is
not blank, the `/api/chat` handler appends the user utterance to the
history before the Respond stage is invoked — the history handed to
stage 4 is the prior history extended by the user entry (under the cap);
a Respond failure leaves the user entry recorded with no assistant
entry; on success the assistant answer is appended after it, so the two
entries user-then-assistant are appended in order (and, while the prior
history holds at most 8 entries, the final history is literally the old
history plus exactly those 2 entries). -/
theorem chat_history_ordering {F : Type}
    (parse : String → Option ResponseData) (now : Nat) (sid msg : String)
    (cap : RespondCap) (m : Store Analysis WebInfo F)
    (s : Session Analysis WebInfo F)
    (hs : mapGet m sid = some s)
    (hmsg : (trimL msg.data).isEmpty = false) :
    (apiChat parse now sid msg cap m).stage4History =
      some (lastN 10 (s.conversationHistory ++
        [{ role := "user", content := msg, timestamp := now }]))
    ∧ (∀ e d, handleFollowUp parse cap = .err e d →
        (apiChat parse now sid msg cap m).outcome = .respondFailure e d
        ∧ (mapGet (apiChat parse now sid msg cap m).store sid).map
            Session.conversationHistory =
          some (lastN 10 (s.conversationHistory ++
            [{ role := "user", content := msg, timestamp := now }])))
    ∧ (∀ rd, handleFollowUp parse cap = .ok rd →
        (mapGet (apiChat parse now sid msg cap m).store sid).map
            Session.conversationHistory =
          some (lastN 10 (s.conversationHistory ++
            [{ role := "user", content := msg, timestamp := now },
             { role := "assistant", content := rd.answer,
               timestamp := now }]))
        ∧ (s.conversationHistory.length ≤ 8 →
            lastN 10 (s.conversationHistory ++
              [{ role := "user", content := msg, timestamp := now },
               { role := "assistant", content := rd.answer,
                 timestamp := now }]) =
            s.conversationHistory ++
              [{ role := "user", content := msg, timestamp := now },
               { role := "assistant", content := rd.answer,
                 timestamp := now }])) := by
  have hH : hasSession sid m = true := by simp [hasSession, hs]
  have hget := getAnalysis_some now sid m s hs
  have hs1 : mapGet (mapSet m sid { s with lastAccessed := now }) sid =
      some { s with lastAccessed := now } := mapGet_mapSet_self ..
  have hadd1 := addToConversationHistory_some now sid "user" msg
    (mapSet m sid { s with lastAccessed := now })
    { s with lastAccessed := now } hs1
  have hs2 : mapGet (addToConversationHistory now sid "user" msg
      (mapSet m sid { s with lastAccessed := now })).2 sid =
      some { s with
        conversationHistory := lastN 10 (s.conversationHistory ++
          [{ role := "user", content := msg, timestamp := now }])
        lastAccessed := now } := by
    rw [hadd1]; exact mapGet_mapSet_self ..
  cases hf : handleFollowUp parse cap with
  | err e0 d0 =>
    have hapi : apiChat parse now sid msg cap m =
        { outcome := .respondFailure e0 d0,
          stage4History := some (lastN 10 (s.conversationHistory ++
            [{ role := "user", content := msg, timestamp := now }])),
          store := (addToConversationHistory now sid "user" msg
            (mapSet m sid { s with lastAccessed := now })).2 } := by
      rw [apiChat, if_neg (by rw [hH]; decide), if_neg (by rw [hmsg]; decide),
        hget]
      simp only [hs2, hf]
    refine ⟨by rw [hapi], fun e d hed => ?_, fun rd hrd => ?_⟩
    · cases hed
      constructor
      · rw [hapi]
      · rw [hapi, hs2]
        rfl
    · exact FollowUpResult.noConfusion hrd
  | ok rd0 =>
    have hadd2 := addToConversationHistory_some now sid "assistant"
      rd0.answer
      (addToConversationHistory now sid "user" msg
        (mapSet m sid { s with lastAccessed := now })).2
      { s with
        conversationHistory := lastN 10 (s.conversationHistory ++
          [{ role := "user", content := msg, timestamp := now }])
        lastAccessed := now } hs2
    have hcomb : lastN 10 (lastN 10 (s.conversationHistory ++
        [{ role := "user", content := msg, timestamp := now }]) ++
        [{ role := "assistant", content := rd0.answer,
           timestamp := now }]) =
        lastN 10 (s.conversationHistory ++
          [{ role := "user", content := msg, timestamp := now },
           { role := "assistant", content := rd0.answer,
             timestamp := now }]) := by
      rw [lastN_lastN_append, List.append_assoc]
      rfl
    have hs3 : mapGet (addToConversationHistory now sid "assistant"
        rd0.answer
        (addToConversationHistory now sid "user" msg
          (mapSet m sid { s with lastAccessed := now })).2).2 sid =
        some { s with
          conversationHistory := lastN 10 (s.conversationHistory ++
            [{ role := "user", content := msg, timestamp := now },
             { role := "assistant", content := rd0.answer,
               timestamp := now }])
          lastAccessed := now } := by
      rw [hadd2]
      have := mapGet_mapSet_self
        (addToConversationHistory now sid "user" msg
          (mapSet m sid { s with lastAccessed := now })).2 sid
        { s with
          conversationHistory := lastN 10 (lastN 10 (s.conversationHistory
            ++ [{ role := "user", content := msg, timestamp := now }]) ++
            [{ role := "assistant", content := rd0.answer,
               timestamp := now }])
          lastAccessed := now }
      rw [this, hcomb]
    have hapi : apiChat parse now sid msg cap m =
        { outcome := .ok rd0.answer rd0.suggestedQuestions
            (lastN 10 (s.conversationHistory ++
              [{ role := "user", content := msg, timestamp := now },
               { role := "assistant", content := rd0.answer,
                 timestamp := now }])),
          stage4History := some (lastN 10 (s.conversationHistory ++
            [{ role := "user", content := msg, timestamp := now }])),
          store := (addToConversationHistory now sid "assistant"
            rd0.answer
            (addToConversationHistory now sid "user" msg
              (mapSet m sid { s with lastAccessed := now })).2).2 } := by
      rw [apiChat, if_neg (by rw [hH]; decide), if_neg (by rw [hmsg]; decide),
        hget]
      simp only [hs2, hf, hs3]
    refine ⟨by rw [hapi], fun e d hed => ?_, fun rd hrd => ?_⟩
    · exact FollowUpResult.noConfusion hed
    · cases hrd
      refine ⟨?_, fun hlen => ?_⟩
      · rw [hapi, hs3]
        rfl
      · exact lastN_of_length_le 10 _ (by simp; omega)

/-- A pipeline-typed session as `/api/analyze` would commit it. -/
def chatSessionFixture : Session Analysis WebInfo Unit :=
  { analysis := analysisOk, webInfo := some handlerDegradedWebInfo,
    formattedData := some (), conversationHistory := [],
    createdAt := 2, lastAccessed := 2 }

/-- A pipeline-typed store holding `chatSessionFixture` under `sid-1`. -/
def chatStoreFixture : Store Analysis WebInfo Unit :=
  (storeAnalysis 2 "sid-1" analysisOk (some handlerDegradedWebInfo)
    (some ()) []).2

theorem chat_history_ordering_witness :
    (apiChat (fun _ => none) 4 "sid-1" "is this vegan?"
        (.replied "Yes, it is vegan.") chatStoreFixture).stage4History =
      some (lastN 10 (chatSessionFixture.conversationHistory ++
        [{ role := "user", content := "is this vegan?", timestamp := 4 }]))
    ∧ (mapGet (apiChat (fun _ => none) 4 "sid-1" "is this vegan?"
        (.replied "Yes, it is vegan.") chatStoreFixture).store
        "sid-1").map Session.conversationHistory =
      some (lastN 10 (chatSessionFixture.conversationHistory ++
        [{ role := "user", content := "is this vegan?", timestamp := 4 },
         { role := "assistant", content := "Yes, it is vegan.",
           timestamp := 4 }])) :=
  have h := chat_history_ordering (fun _ => none) 4 "sid-1"
    "is this vegan?" (.replied "Yes, it is vegan.") chatStoreFixture
    chatSessionFixture (by decide) (by decide)
  ⟨h.1, (h.2.2
      (⟨"Yes, it is vegan.", genericSuggestedQuestions⟩ : ResponseData)
      (by decide)).1⟩
